import Mathlib

/-
Verification of the html-template rendering engine (src/index.mjs).

The engine is shallowly embedded: JavaScript values are modelled by `Value`,
DOM elements by `Elem` (tag, attributes, text content, element children),
the cached per-node analysis produced by `_analyzeElement` by `Structure`,
and the recursive renderer `_processElement` and its helpers by a mutually
recursive family of Lean functions.  DOM mutation (removal of a node,
insertion of sibling clones) is modelled by letting the processing of one
node return the list of output nodes that replace it in its parent, and by
replaying the source's `for (let i = 0; i < element.children.length; i++)`
loop over the live child collection faithfully, index shift included.

The constraint evaluator of the source hands the substituted expression text
to the JavaScript host (`Function('"use strict"; return (' + e + ')')()`);
that host call is modelled by an explicit parameter `hostEval`, and
`jsEvalModel` models the host's behaviour on the fragment of expression
texts reachable in the concrete examples of this development (comparison of
two string literals; everything else is a host error, `none`, which the
source catches and turns into `false`).

Host-JS corner cases that the source would crash on (calling `.startsWith`
on a non-string truthy reference, `in` on a primitive) are outside the model
and are not exercised by any theorem; object identity (`===` on two objects)
is modelled as `false` since distinct structural copies are never identical
in the renderer's comparisons.
-/

namespace HTMLTemplateSpec

/-- JavaScript values as used by the engine: strings, (integral) numbers,
booleans, `undefined`, objects as insertion-ordered field lists, arrays. -/
inductive Value where
  | vStr (s : String)
  | vNum (n : Int)
  | vBool (b : Bool)
  | vUndefined
  | vObj (fields : List (String × Value))
  | vArr (elems : List Value)
deriving Repr

/-- JavaScript truthiness of a value ("" , 0, false and undefined are falsy;
objects and arrays are always truthy). -/
def jsTruthy : Value → Bool
  | .vStr s => s ≠ ""
  | .vNum n => n ≠ 0
  | .vBool b => b
  | .vUndefined => false
  | .vObj _ => true
  | .vArr _ => true

/-- Whether a value is `undefined` (the source's `x !== undefined` tests). -/
def Value.isUndefined : Value → Bool
  | .vUndefined => true
  | _ => false

/-- Substring test on character lists (JavaScript `includes`). -/
def listContainsSub : List Char → List Char → Bool
  | [], pat => pat.isEmpty
  | c :: rest, pat => pat.isPrefixOf (c :: rest) || listContainsSub rest pat

/-- JavaScript `endsWith`. -/
def strEndsWith (s pat : String) : Bool :=
  pat.toList.reverse.isPrefixOf s.toList.reverse

/-- JavaScript `startsWith`. -/
def strStartsWith (s pat : String) : Bool :=
  pat.toList.isPrefixOf s.toList

/-- `toLowerCase` restricted to the ASCII tag names that occur. -/
def strToLower (s : String) : String :=
  String.mk (s.toList.map Char.toLower)

/-- `slice(0, -2)`: drop the final two characters. -/
def strDropRight2 (s : String) : String :=
  String.mk s.toList.dropLast.dropLast

/-- Parse of a canonical array-index string (digits only), as used for
JavaScript array indexing. -/
def digitsToNat (s : String) : Option Nat :=
  if s ≠ "" && s.toList.all Char.isDigit then
    some (s.toList.foldl (fun n c => n * 10 + (c.toNat - 48)) 0)
  else none

/-- Property read `v[k]`: object field lookup (first binding wins), numeric
index into an array, `undefined` otherwise. -/
def jsGet (v : Value) (k : String) : Value :=
  match v with
  | .vObj fields =>
    match fields.find? (fun p => p.1 == k) with
    | some p => p.2
    | none => .vUndefined
  | .vArr l =>
    match digitsToNat k with
    | some i => if h : i < l.length then l.get ⟨i, h⟩ else .vUndefined
    | none => .vUndefined
  | _ => .vUndefined

/-- `Object.prototype.hasOwnProperty` for the modelled values. -/
def hasOwn (v : Value) (k : String) : Bool :=
  match v with
  | .vObj fields => fields.any (fun p => p.1 == k)
  | .vArr l =>
    match digitsToNat k with
    | some i => i < l.length
    | none => false
  | _ => false

mutual

/-- JavaScript `String(v)` coercion. -/
def jsToString : Value → String
  | .vStr s => s
  | .vNum n => toString n
  | .vBool b => if b then "true" else "false"
  | .vUndefined => "undefined"
  | .vObj _ => "[object Object]"
  | .vArr l => jsToStringArr l

/-- Array-to-string join with commas; `undefined` elements join as empty. -/
def jsToStringArr : List Value → String
  | [] => ""
  | [v] => (match v with | .vUndefined => "" | x => jsToString x)
  | v :: rest =>
    (match v with | .vUndefined => "" | x => jsToString x) ++ "," ++ jsToStringArr rest

end

mutual

/-- `JSON.stringify` for the modelled values (no character escaping is
modelled; none of the concrete inputs in this development need it). -/
def jsonStringify : Value → String
  | .vStr s => "\"" ++ s ++ "\""
  | .vNum n => toString n
  | .vBool b => if b then "true" else "false"
  | .vUndefined => "undefined"
  | .vObj fields => "\x7b" ++ jsonStringifyFields fields ++ "\x7d"
  | .vArr l => "[" ++ jsonStringifyArr l ++ "]"

/-- JSON serialization of array elements (undefined serializes as null). -/
def jsonStringifyArr : List Value → String
  | [] => ""
  | [v] => (match v with | .vUndefined => "null" | x => jsonStringify x)
  | v :: rest =>
    (match v with | .vUndefined => "null" | x => jsonStringify x) ++ "," ++ jsonStringifyArr rest

/-- JSON serialization of object fields (undefined-valued fields dropped). -/
def jsonStringifyFields : List (String × Value) → String
  | [] => ""
  | [(k, v)] => (match v with | .vUndefined => "" | x => "\"" ++ k ++ "\":" ++ jsonStringify x)
  | (k, v) :: rest =>
    (match v with
     | .vUndefined => jsonStringifyFields rest
     | x => "\"" ++ k ++ "\":" ++ jsonStringify x ++ "," ++ jsonStringifyFields rest)

end

/-- Strict equality `===` on the modelled values.  Object/array comparison
is reference identity in JavaScript; the renderer only ever compares scalars,
so comparing two compound values is modelled as `false`. -/
def jsStrictEq : Value → Value → Bool
  | .vStr a, .vStr b => a == b
  | .vNum a, .vNum b => a == b
  | .vBool a, .vBool b => a == b
  | .vUndefined, .vUndefined => true
  | _, _ => false

/-- Truthiness of a `getAttribute` result (null or the empty string is falsy). -/
def strTruthy : Option String → Bool
  | some s => s ≠ ""
  | none => false

/-- A DOM element: tag name, ordered attribute list, text content, and the
(element-only) child collection. -/
inductive Elem where
  | mk (tag : String) (attrs : List (String × String)) (text : String) (children : List Elem)
deriving Repr

/-- Tag name of an element. -/
def Elem.tag : Elem → String
  | .mk t _ _ _ => t

/-- Attribute list of an element. -/
def Elem.attrs : Elem → List (String × String)
  | .mk _ a _ _ => a

/-- Text content of an element. -/
def Elem.text : Elem → String
  | .mk _ _ x _ => x

/-- Child elements of an element. -/
def Elem.children : Elem → List Elem
  | .mk _ _ _ cs => cs

/-- `getAttribute`: the value of the first binding of a named attribute,
none when absent. -/
def attrsGet : List (String × String) → String → Option String
  | [], _ => none
  | (a, w) :: rest, n => if a == n then some w else attrsGet rest n

/-- `getAttribute` on an element. -/
def Elem.getAttr (e : Elem) (n : String) : Option String :=
  attrsGet e.attrs n

/-- `hasAttribute` on an element. -/
def Elem.hasAttr (e : Elem) (n : String) : Bool :=
  e.attrs.any (fun p => p.1 == n)

/-- `setAttribute` on an attribute list: updates an existing attribute in
place, otherwise appends. -/
def setAttrList : List (String × String) → String → String → List (String × String)
  | [], n, v => [(n, v)]
  | (a, w) :: rest, n, v =>
    if a == n then (n, v) :: rest else (a, w) :: setAttrList rest n v

/-- `setAttribute` on an element. -/
def Elem.setAttr : Elem → String → String → Elem
  | .mk t a x cs, n, v => .mk t (setAttrList a n v) x cs

/-- `removeAttribute` on an element. -/
def Elem.removeAttr : Elem → String → Elem
  | .mk t a x cs, n => .mk t (a.filter (fun p => p.1 ≠ n)) x cs

/-- Assignment to `textContent`. -/
def Elem.setText : Elem → String → Elem
  | .mk t a _ cs, x => .mk t a x cs

/-- Replacement of the whole child collection (net effect of the renderer's
in-place child mutations). -/
def Elem.setChildren : Elem → List Elem → Elem
  | .mk t a x _, cs => .mk t a x cs

/-- The cached analysis of one template node as built by `_analyzeElement`:
`itemprop`, `itemscope`, `itemtype`, `data-scope`, `data-constraint` and
`scope` attributes, the array-marker flag with the stripped property name,
the attributes whose value contains a placeholder, and the analyses of the
children in document order. -/
inductive Structure where
  | mk (itemprop : Option String) (itemscope : Bool) (itemtype : Option String)
       (dataScope : Option String) (dataConstraint : Option String)
       (scopeAttr : Option String) (isArray : Bool) (cleanItemprop : Option String)
       (attributes : List (String × String)) (children : List Structure)
deriving Repr

/-- The `itemprop` attribute captured at analysis time. -/
def Structure.itemprop : Structure → Option String
  | .mk ip _ _ _ _ _ _ _ _ _ => ip

/-- The `itemscope` flag captured at analysis time. -/
def Structure.itemscope : Structure → Bool
  | .mk _ isc _ _ _ _ _ _ _ _ => isc

/-- The `itemtype` attribute captured at analysis time. -/
def Structure.itemtype : Structure → Option String
  | .mk _ _ it _ _ _ _ _ _ _ => it

/-- The `data-scope` attribute captured at analysis time. -/
def Structure.dataScope : Structure → Option String
  | .mk _ _ _ dsc _ _ _ _ _ _ => dsc

/-- The `data-constraint` attribute captured at analysis time. -/
def Structure.dataConstraint : Structure → Option String
  | .mk _ _ _ _ dcon _ _ _ _ _ => dcon

/-- The `scope` attribute captured at analysis time. -/
def Structure.scopeAttr : Structure → Option String
  | .mk _ _ _ _ _ scp _ _ _ _ => scp

/-- Whether the `itemprop` ends in the array marker `[]`. -/
def Structure.isArray : Structure → Bool
  | .mk _ _ _ _ _ _ arr _ _ _ => arr

/-- The binding property with the array marker stripped. -/
def Structure.cleanItemprop : Structure → Option String
  | .mk _ _ _ _ _ _ _ clean _ _ => clean

/-- The attributes whose value contains a `$\x7b` placeholder, verbatim. -/
def Structure.attributes : Structure → List (String × String)
  | .mk _ _ _ _ _ _ _ _ attrs _ => attrs

/-- The analyses of the child elements, in document order. -/
def Structure.children : Structure → List Structure
  | .mk _ _ _ _ _ _ _ _ _ cs => cs

/-- Whether an attribute value contains the placeholder opener (the source's
`attr.value.includes('$\x7b')`). -/
def containsPlaceholderOpen (s : String) : Bool :=
  listContainsSub s.toList ['$', '\x7b']

mutual

/-- `_analyzeElement`: capture itemprop (with array-marker detection and
stripping), itemscope, itemtype, data-scope, data-constraint, scope, the
attributes containing placeholders, and recursively the children. -/
def analyzeElement : Elem → Structure
  | .mk _tag attrs _text children =>
    let ip := attrsGet attrs "itemprop"
    let isArr := match ip with
      | some s => s ≠ "" && strEndsWith s "[]"
      | none => false
    let clean := if isArr then ip.map (fun s => strDropRight2 s) else ip
    Structure.mk ip ((attrs.any (fun p => p.1 == "itemscope"))) (attrsGet attrs "itemtype")
      (attrsGet attrs "data-scope") (attrsGet attrs "data-constraint")
      (attrsGet attrs "scope") isArr clean
      (attrs.filter (fun p => containsPlaceholderOpen p.2))
      (analyzeChildren children)

/-- Analysis of a child list in document order. -/
def analyzeChildren : List Elem → List Structure
  | [] => []
  | c :: cs => analyzeElement c :: analyzeChildren cs

end

/-- One entry of the template cache built by `_parseTemplate`: the root
element, its `itemtype`, and its structural analysis. -/
structure Root where
  element : Elem
  itemtype : Option String
  struct : Structure
deriving Repr

/-- `_parseTemplate` in the no-selector case: the candidate roots are the
direct children of the template content that carry `itemtype`, falling back
to all direct children when there are none. -/
def parseTemplate (templateChildren : List Elem) : List Root :=
  let withType := templateChildren.filter (fun e => e.hasAttr "itemtype")
  let rootEls := if withType.isEmpty then templateChildren else withType
  rootEls.map (fun e => ⟨e, e.getAttr "itemtype", analyzeElement e⟩)

/-- Word characters of the JavaScript regex class `\w`. -/
def isWordChar (c : Char) : Bool :=
  c.isAlphanum || c == '_'

/-- Splits a character list into maximal runs, each tagged with whether it is
a run of word characters.  Runs are returned in order and concatenate back to
the input. -/
def splitRunsAux (tag : Bool) (acc : List Char) : List Char → List (Bool × List Char)
  | [] => if acc.isEmpty then [] else [(tag, acc.reverse)]
  | c :: rest =>
    if isWordChar c == tag then splitRunsAux tag (c :: acc) rest
    else if acc.isEmpty then splitRunsAux (isWordChar c) [c] rest
    else (tag, acc.reverse) :: splitRunsAux (isWordChar c) [c] rest

/-- Maximal word/non-word runs of a string. -/
def splitRuns (s : String) : List (Bool × List Char) :=
  splitRunsAux true [] s.toList

/-- All matches of the regex `\b\w+\b` with the global flag: the maximal word
runs of the string. -/
def wordRuns (s : String) : List String :=
  (splitRuns s).filterMap (fun p => if p.1 then some (String.mk p.2) else none)

/-- Replacement scan for the first occurrence of a (nonempty) pattern. -/
def replaceFirstList (pat repl : List Char) : List Char → List Char
  | [] => []
  | c :: rest =>
    if pat.isPrefixOf (c :: rest) then repl ++ (c :: rest).drop pat.length
    else c :: replaceFirstList pat repl rest

/-- JavaScript `String.prototype.replace` with a plain-string pattern:
replaces the first occurrence only. -/
def replaceFirst (s pat repl : String) : String :=
  if pat = "" then repl ++ s
  else String.mk (replaceFirstList pat.toList repl.toList s.toList)

/-- Replacement of every word-bounded occurrence of a word (the source's
`new RegExp('\\b' + prop + '\\b', 'g')`): since the pattern is itself a word
run, the word-bounded occurrences are exactly the maximal word runs equal to
it. -/
def replaceWordAll (s word repl : String) : String :=
  String.join ((splitRuns s).map (fun p =>
    if p.1 && String.mk p.2 == word then repl else String.mk p.2))

/-- The expression rewriting performed by `_evaluateExpression` before the
host call: the first occurrence of `@id` becomes the quoted identifier (empty
when falsy), then each `\b\w+\b` word of the rewritten text that is an own
property of the record is replaced, word-bounded, by its quoted string value
or its JSON serialization. -/
def transformExpression (expr : String) (data : Value) : String :=
  let idv := jsGet data "@id"
  let idRepl := "\"" ++ (if jsTruthy idv then jsToString idv else "") ++ "\""
  let e1 := replaceFirst expr "@id" idRepl
  let props := wordRuns e1
  props.foldl (fun e prop =>
    if hasOwn data prop then
      let v := jsGet data prop
      let repl := match v with
        | .vStr s => "\"" ++ s ++ "\""
        | other => jsonStringify other
      replaceWordAll e prop repl
    else e) e1

/-- Parses a double-quoted string literal at the head of a character list. -/
def parseStringLit : List Char → Option (String × List Char)
  | '"' :: rest =>
    let body := rest.takeWhile (fun c => c ≠ '"')
    (match rest.dropWhile (fun c => c ≠ '"') with
     | '"' :: tail => some (String.mk body, tail)
     | _ => none)
  | _ => none

/-- Drops leading spaces. -/
def skipSpaces (l : List Char) : List Char :=
  l.dropWhile (fun c => c == ' ')

/-- Model of the JavaScript host evaluation
`Function('"use strict"; return (' + e + ')')()` on the fragment of
expression texts reachable in the concrete examples of this development: an
equality or inequality of two double-quoted string literals evaluates to its
boolean value; any other text (in particular one still containing a bare
identifier) raises at the host level, modelled as `none`, which the source
catches and converts to `false` with a diagnostic. -/
def jsEvalModel (s : String) : Option Bool :=
  match parseStringLit (skipSpaces s.toList) with
  | none => none
  | some (s1, r) =>
    match skipSpaces r with
    | '=' :: '=' :: r2 =>
      match parseStringLit (skipSpaces r2) with
      | some (s2, r3) => if (skipSpaces r3).isEmpty then some (s1 == s2) else none
      | none => none
    | '!' :: '=' :: r2 =>
      match parseStringLit (skipSpaces r2) with
      | some (s2, r3) => if (skipSpaces r3).isEmpty then some (s1 != s2) else none
      | none => none
    | _ => none

/-- The rendering context created per `_renderSingle` call: the record the
render started from, the record in scope at the current depth, and the full
record batch used for reference resolution. -/
structure Ctx where
  rootData : Value
  currentData : Value
  allData : List Value
deriving Repr

/-- `_findScopeMatches`: the records of the batch whose named property is
strictly equal to `'#' + id` or to the identifier value itself, where `id` is
the `@id` of the ROOT record of the current render (the passed per-node
record is ignored by the source); a falsy root identifier yields no
matches. -/
def findScopeMatches (scopeProp : String) (_data : Value) (ctx : Ctx) : List Value :=
  let currentId := jsGet ctx.rootData "@id"
  if jsTruthy currentId then
    ctx.allData.filter (fun item =>
      let sv := jsGet item scopeProp
      jsStrictEq sv (.vStr ("#" ++ jsToString currentId)) || jsStrictEq sv currentId)
  else []

/-- `_resolveReference` in the source unconditionally returns null and defers
to the constraint logic. -/
def resolveReference (_reference : String) (_data : Value) (_ctx : Ctx) : Option Value :=
  none

/-- `_evaluateExpression`: the hard-coded special case for the literal text
`@id==agent` resolves the `agent` reference against the batch and reports the
resolved record; every other expression is rewritten by
`transformExpression` and handed to the host evaluator, a host error being
caught as `false` with a diagnostic.  Result: (boolean, resolved record to
substitute, diagnostics). -/
def evaluateExpressionWith (hostEval : String → Option Bool) (expr : String)
    (data : Value) (ctx : Ctx) : Bool × Option Value × List String :=
  if expr == "@id==agent" then
    let a1 := jsGet ctx.currentData "agent"
    let agentRef := if jsTruthy a1 then a1 else jsGet data "agent"
    match agentRef with
    | .vStr r =>
      if r ≠ "" && strStartsWith r "#" then
        let id := r.drop 1
        match ctx.allData.find? (fun item => jsStrictEq (jsGet item "@id") (.vStr id)) with
        | some m => (true, some m, [])
        | none => (false, none, [])
      else (false, none, [])
    | _ => (false, none, [])
  else
    match hostEval (transformExpression expr data) with
    | some b => (b, none, [])
    | none => (false, none, ["Failed to evaluate constraint: " ++ expr])

/-- `_evaluateConstraint`: the `data-scope` shorthand compares the record's
named property against the root record's identifier (marker-prefixed or
bare); otherwise a truthy `data-constraint` is evaluated as an expression;
with neither, the constraint passes. -/
def evaluateConstraint (hostEval : String → Option Bool) (s : Structure)
    (data : Value) (ctx : Ctx) : Bool × Option Value × List String :=
  if strTruthy s.dataScope then
    let scopeValue := jsGet data (s.dataScope.getD "")
    let contextId := jsGet ctx.rootData "@id"
    if jsTruthy contextId && jsTruthy scopeValue then
      (jsStrictEq scopeValue (.vStr ("#" ++ jsToString contextId)) ||
         jsStrictEq scopeValue contextId, none, [])
    else (false, none, [])
  else if strTruthy s.dataConstraint then
    evaluateExpressionWith hostEval (s.dataConstraint.getD "") data ctx
  else (true, none, [])

mutual

/-- `_replaceAttributeVariables`: replaces each `$\x7bname\x7d` placeholder
whose name is a defined property of the record by the property value,
leaving unresolved placeholders verbatim.  Scanning part. -/
def ravScan (data : Value) : List Char → List Char
  | [] => []
  | '$' :: '\x7b' :: rest => ravWord data [] rest
  | c :: rest => c :: ravScan data rest

/-- Placeholder-name accumulation part of `_replaceAttributeVariables`. -/
def ravWord (data : Value) (acc : List Char) : List Char → List Char
  | [] => '$' :: '\x7b' :: acc.reverse
  | c :: rest =>
    if isWordChar c then ravWord data (c :: acc) rest
    else if c == '\x7d' && !acc.isEmpty then
      let key := String.mk acc.reverse
      let v := jsGet data key
      (if !v.isUndefined then (jsToString v).toList
       else '$' :: '\x7b' :: acc.reverse ++ ['\x7d']) ++ ravScan data rest
    else '$' :: '\x7b' :: acc.reverse ++ ravScan data (c :: rest)

end

/-- `_replaceAttributeVariables` on strings. -/
def replaceAttributeVariables (tmpl : String) (data : Value) : String :=
  String.mk (ravScan data tmpl.toList)

/-- Application of the cached attribute templates (step 5 of the renderer):
every captured attribute is re-set to its template with placeholders
substituted from the active record. -/
def applyAttributeTemplates (attrs : List (String × String)) (e : Elem) (data : Value) : Elem :=
  attrs.foldl (fun e p => e.setAttr p.1 (replaceAttributeVariables p.2 data)) e

/-- `document.baseURI` of the rendering document, an ambient constant of the
host environment. -/
def docBaseURI : String := "about:blank"

/-- The trailing `itemid` attachment of `_processElement`: when the active
record and its `@id` are truthy and the output element carries `itemscope`,
an `itemid` of the form `baseURI#id` is set. -/
def applyItemid (e : Elem) (data : Value) : Elem :=
  if jsTruthy data && jsTruthy (jsGet data "@id") && e.hasAttr "itemscope" then
    e.setAttr "itemid" (docBaseURI ++ "#" ++ jsToString (jsGet data "@id"))
  else e

/-- `_setElementValue`: the per-tag leaf assignment table.  Only effects on
attributes and text content are modelled; bare DOM properties (`checked`,
`value`, `selected` as properties) have no counterpart in the element
model. -/
def setElementValue (e : Elem) (v : Value) : Elem :=
  match strToLower e.tag with
  | "input" =>
    if ((e.getAttr "type").getD "" == "checkbox" || (e.getAttr "type").getD "" == "radio") then
      if jsTruthy v then e.setAttr "checked" "checked" else e.removeAttr "checked"
    else e.setAttr "value" (jsToString v)
  | "textarea" => e.setText (jsToString v)
  | "select" =>
    e.setChildren (e.children.map (fun o =>
      if strToLower o.tag == "option" then
        let ov := (o.getAttr "value").getD o.text
        if (match v with | .vStr s => ov == s | _ => false) then
          o.setAttr "selected" "selected"
        else o.removeAttr "selected"
      else o))
  | "option" => e
  | "output" => e
  | "meta" => e.setAttr "content" (jsToString v)
  | "img" => e.setAttr "src" (jsToString v)
  | "link" => e.setAttr "href" (jsToString v)
  | "audio" => e.setAttr "src" (jsToString v)
  | "video" => e.setAttr "src" (jsToString v)
  | "source" => e.setAttr "src" (jsToString v)
  | "object" => e.setAttr "data" (jsToString v)
  | "embed" => e.setAttr "src" (jsToString v)
  | "iframe" => e.setAttr "src" (jsToString v)
  | "time" => e.setAttr "datetime" (jsToString v)
  | "data" => e.setAttr "value" (jsToString v)
  | "meter" => e.setAttr "value" (jsToString v)
  | "progress" => e.setAttr "value" (jsToString v)
  | _ => e.setText (jsToString v)

/-- The effect of processing one node on its parent's child collection: an
ordinary node yields a single replacement, a failed constraint removes the
node, and array/scope expansion replaces it by zero or more sibling clones. -/
inductive POut where
  | single (e : Elem)
  | removed
  | expanded (es : List Elem)
deriving Repr

mutual

/-- `_processElement`: the per-node renderer.  A truthy `data-scope` turns
the node into a repeatable filter pattern over the batch (removed when there
are no matches); otherwise a truthy `data-constraint` gates the node and may
substitute a resolved record; the remaining processing is
`processElementRest`. -/
def processElement (hostEval : String → Option Bool) (s : Structure) (e : Elem)
    (data : Value) (ctx : Ctx) : POut × List String :=
  match s with
  | .mk ip isc it dsc dcon scp arr clean attrs children =>
    if strTruthy dsc || strTruthy dcon then
      if strTruthy dsc then
        let ms := findScopeMatches (dsc.getD "") data ctx
        if ms.isEmpty then (.removed, [])
        else
          let (es, ds) := processScopeLoop hostEval children clean e ms ctx
          (.expanded es, ds)
      else
        match evaluateConstraint hostEval (.mk ip isc it dsc dcon scp arr clean attrs children) data ctx with
        | (ok, resolved, d1) =>
          if ok then
            let data2 := match resolved with | some r => r | none => data
            let (out, ds) := processElementRest hostEval (.mk ip isc it dsc dcon scp arr clean attrs children) e data2 ctx
            (out, d1 ++ ds)
          else (.removed, d1)
    else
      processElementRest hostEval (.mk ip isc it dsc dcon scp arr clean attrs children) e data ctx
termination_by (sizeOf s, 9, 0)

/-- The non-constraint part of `_processElement`: dead `scope`-reference
lookup, array expansion (with the soft non-sequence error), attribute
templating, scalar/nested binding with array-marker cleanup, child recursion
for unbound nodes, and the trailing `itemid` attachment. -/
def processElementRest (hostEval : String → Option Bool) (s : Structure) (e : Elem)
    (data : Value) (ctx : Ctx) : POut × List String :=
  match s with
  | .mk _ip isc _it _dsc _dcon scp arr clean attrs children =>
    let data :=
      (match scp with
       | some sc => if sc ≠ "" then (resolveReference sc data ctx).getD data else data
       | none => data)
    if arr && strTruthy clean && jsTruthy (jsGet data (clean.getD "")) then
      match jsGet data (clean.getD "") with
      | .vArr items =>
        let (es, ds) := processArrayLoop hostEval children arr clean e items ctx
        (.expanded es, ds)
      | _ => (.single e, ["Expected array for property: " ++ clean.getD ""])
    else
      let e1 := applyAttributeTemplates attrs e data
      if strTruthy clean then
        let cleanS := clean.getD ""
        let v := jsGet data cleanS
        let (e2, ds) :=
          if !v.isUndefined then
            if isc && (match v with | .vObj _ => true | _ => false) then
              let (cs, ds) := processChildrenGo hostEval children e1.children [] v { ctx with currentData := v }
              (e1.setChildren cs, ds)
            else (setElementValue e1 v, ([] : List String))
          else (e1, [])
        let e3 := if arr then e2.setAttr "itemprop" cleanS else e2
        (.single (applyItemid e3 data), ds)
      else
        let (cs, ds) := processChildrenGo hostEval children e1.children [] data ctx
        (.single (applyItemid (e1.setChildren cs) data), ds)
termination_by (sizeOf s, 8, 0)

/-- The per-item body of `_processArray`: clone, strip the array marker, then
either recurse into the children with the element as active record (object
items with analyzed children) or assign the element via the leaf rule. -/
def oneArrayClone (hostEval : String → Option Bool) (children : List Structure) (arr : Bool)
    (clean : Option String) (e : Elem) (item : Value) (ctx : Ctx) : Elem × List String :=
  let ne := if arr then e.setAttr "itemprop" (clean.getD "") else e
  if (match item with | .vObj _ => true | .vArr _ => true | _ => false) && !children.isEmpty then
    let (cs, ds) := processChildrenGo hostEval children ne.children [] item { ctx with currentData := item }
    (ne.setChildren cs, ds)
  else (setElementValue ne item, [])
termination_by (sizeOf children, 1, 0)

/-- The clone loop of `_processArray`: one clone per array element, in array
order. -/
def processArrayLoop (hostEval : String → Option Bool) (children : List Structure) (arr : Bool)
    (clean : Option String) (e : Elem) (items : List Value) (ctx : Ctx) : List Elem × List String :=
  match items with
  | [] => ([], [])
  | item :: rest =>
    let (ne, ds1) := oneArrayClone hostEval children arr clean e item ctx
    let (res, ds2) := processArrayLoop hostEval children arr clean e rest ctx
    (ne :: res, ds1 ++ ds2)
termination_by (sizeOf children, 2, items.length)

/-- The per-match body of `_processScopeArray`: clone, recurse into the
children with the matched record, then assign the clone's own binding when
the matched record defines it. -/
def oneScopeClone (hostEval : String → Option Bool) (children : List Structure)
    (clean : Option String) (e : Elem) (m : Value) (ctx : Ctx) : Elem × List String :=
  let (cs, ds) := processChildrenGo hostEval children e.children [] m { ctx with currentData := m }
  let ne := e.setChildren cs
  let ne2 :=
    if strTruthy clean && !(jsGet m (clean.getD "")).isUndefined then
      setElementValue ne (jsGet m (clean.getD ""))
    else ne
  (ne2, ds)
termination_by (sizeOf children, 1, 0)

/-- The clone loop of `_processScopeArray`: one clone per matched record, in
batch order. -/
def processScopeLoop (hostEval : String → Option Bool) (children : List Structure)
    (clean : Option String) (e : Elem) (ms : List Value) (ctx : Ctx) : List Elem × List String :=
  match ms with
  | [] => ([], [])
  | m :: rest =>
    let (ne, ds1) := oneScopeClone hostEval children clean e m ctx
    let (res, ds2) := processScopeLoop hostEval children clean e rest ctx
    (ne :: res, ds1 ++ ds2)
termination_by (sizeOf children, 2, ms.length)

/-- The source's `for (let i = 0; i < element.children.length; i++)` loop
over the live child collection, paired positionally with the cached child
analyses.  `pending` starts as the child collection; processing child `i`
splices its replacement into the collection and the index then advances by
one, so a removal skips the following element and an expansion re-processes
the extra clones against the following analyses — exactly as the mutating
source does.  Structures beyond either list end leave the remaining elements
untouched. -/
def processChildrenGo (hostEval : String → Option Bool) (schildren : List Structure)
    (pending : List Elem) (done : List Elem) (data : Value) (ctx : Ctx) : List Elem × List String :=
  match schildren, pending with
  | [], rest => (done ++ rest, [])
  | _ :: _, [] => (done, [])
  | sc :: srest, e :: erest =>
    match processElement hostEval sc e data ctx with
    | (out, d1) =>
      match out with
      | .single e2 =>
        let (res, d2) := processChildrenGo hostEval srest erest (done ++ [e2]) data ctx
        (res, d1 ++ d2)
      | .removed =>
        let (res, d2) := processChildrenGo hostEval srest (erest.drop 1) (done ++ erest.take 1) data ctx
        (res, d1 ++ d2)
      | .expanded [] =>
        let (res, d2) := processChildrenGo hostEval srest (erest.drop 1) (done ++ erest.take 1) data ctx
        (res, d1 ++ d2)
      | .expanded (r :: rs) =>
        let (res, d2) := processChildrenGo hostEval srest (rs ++ erest) (done ++ [r]) data ctx
        (res, d1 ++ d2)
termination_by (sizeOf schildren, 0, 0)

end

/-- Template selection of `_renderSingle` (lines 267-295): with truthy
`@type` and no selector, the qualified type `data['@context'] + '/' +
data['@type']` (an undefined context stringifying to `"undefined"`) is
matched exactly against the roots in document order; a typed record with no
exact match is skipped whenever any typed root exists; otherwise the first
root applies if it is untyped or the record's `@type` is falsy. -/
def selectRoot (roots : List Root) (hasSelector : Bool) (data : Value) : Option Root :=
  let typed := jsTruthy (jsGet data "@type") && !hasSelector
  let m1 : Option Root :=
    if typed then
      let schemaType := jsToString (jsGet data "@context") ++ "/" ++ jsToString (jsGet data "@type")
      roots.find? (fun t => t.itemtype == some schemaType)
    else none
  match m1 with
  | some r => some r
  | none =>
    if typed && roots.any (fun t => strTruthy t.itemtype) then none
    else
      match roots with
      | [] => none
      | first :: _ =>
        if !(strTruthy first.itemtype) || !(jsTruthy (jsGet data "@type")) then some first
        else none

/-- Outcome of `_renderSingle` for one record: a returned element, null for a
record with no matching root, or a host-level TypeError (root-level expansion
attempts to insert clones into a null parent). -/
inductive SingleResult where
  | elem (e : Elem)
  | noMatch
  | hostError
deriving Repr

/-- `_renderSingle`: select the root, clone it, process the clone against the
record; the clone itself is returned, so a root whose own processing removed
it (failed constraint, empty expansion) comes back as the pristine clone,
while a root-level non-empty expansion crashes on the null parent. -/
def renderSingle (hostEval : String → Option Bool) (roots : List Root) (hasSelector : Bool)
    (allData : List Value) (data : Value) : SingleResult × List String :=
  match selectRoot roots hasSelector data with
  | none => (.noMatch, ["No matching template found for data:"])
  | some root =>
    let ctx : Ctx := ⟨data, data, allData⟩
    match processElement hostEval root.struct root.element data ctx with
    | (.single e, ds) => (.elem e, ds)
    | (.removed, ds) => (.elem root.element, ds)
    | (.expanded [], ds) => (.elem root.element, ds)
    | (.expanded (_ :: _), ds) => (.hostError, ds)

mutual

/-- `_extractDataFromSource` restricted to already-structured inputs: null or
undefined becomes the empty record, arrays extract element-wise, everything
else passes through.  (DOM-element and FormData sources go through their own
extractors and are not part of the renderer model.) -/
def extractDataFromSource : Value → Value
  | .vUndefined => .vObj []
  | .vArr l => .vArr (extractList l)
  | x => x

/-- Element-wise extraction for array sources. -/
def extractList : List Value → List Value
  | [] => []
  | v :: rest => extractDataFromSource v :: extractList rest

end

/-- The engine state: the cached template analysis built at construction, the
presence of a selector, and the `_lastRenderData` field overwritten by every
render call. -/
structure Engine where
  roots : List Root
  hasSelector : Bool
  lastRenderData : Option Value
deriving Repr

/-- Overall outcome of one `render` call. -/
inductive RenderOutput where
  | single (r : SingleResult)
  | batch (rs : List SingleResult)
  | hostError
deriving Repr

/-- The per-item loop of the batch paths of `render`; a host error thrown by
one item propagates and aborts the remaining items. -/
def renderBatch (hostEval : String → Option Bool) (roots : List Root) (hasSelector : Bool)
    (allData : List Value) (items : List Value) : Option (List SingleResult) × List String :=
  match items with
  | [] => (some [], [])
  | item :: rest =>
    match renderSingle hostEval roots hasSelector allData item with
    | (.hostError, d1) => (none, d1)
    | (r, d1) =>
      match renderBatch hostEval roots hasSelector allData rest with
      | (some rs, d2) => (some (r :: rs), d1 ++ d2)
      | (none, d2) => (none, d1 ++ d2)

/-- The output computation of `render` as a function of the cached roots,
the selector flag, and the call's own input: either the batch path (with
null results filtered out exactly when typed roots exist and there is no
selector) or the single path.  The batch used for reference resolution is
the freshly extracted input itself: the source overwrites
`_lastRenderData` with it before `_renderSingle` reads that field, so the
output never observes a previous call's value. -/
def renderCore (hostEval : String → Option Bool) (roots : List Root) (hasSelector : Bool)
    (input : Value) : RenderOutput × List String :=
  match extractDataFromSource input with
  | .vArr items =>
    let hasTyped := roots.any (fun t => strTruthy t.itemtype)
    if hasTyped && !hasSelector then
      match renderBatch hostEval roots hasSelector items items with
      | (some rs, ds) =>
        (.batch (rs.filter (fun r => match r with | .noMatch => false | _ => true)), ds)
      | (none, ds) => (.hostError, ds)
    else
      match renderBatch hostEval roots hasSelector items items with
      | (some rs, ds) => (.batch rs, ds)
      | (none, ds) => (.hostError, ds)
  | single =>
    match renderSingle hostEval roots hasSelector [single] single with
    | (.hostError, ds) => (.hostError, ds)
    | (r, ds) => (.single r, ds)

/-- `render`: extract the input, overwrite `_lastRenderData` with the
extraction, and produce the output from the cached roots, the selector flag
and the input alone. -/
def render (hostEval : String → Option Bool) (eng : Engine) (input : Value) :
    Engine × RenderOutput × List String :=
  ({ eng with lastRenderData := some (extractDataFromSource input) },
   renderCore hostEval eng.roots eng.hasSelector input)

/-- Digit-only test of the source's `/^\d+$/` (numeric array index). -/
def isNumericStr (s : String) : Bool :=
  s ≠ "" && s.toList.all Char.isDigit

/-- The `in` operator as used for navigation (own keys of objects, in-bounds
indices of arrays; prototype-chain hits are not modelled). -/
def jsHasKey (cur : Value) (k : String) : Bool :=
  match cur with
  | .vObj fields => fields.any (fun p => p.1 == k)
  | .vArr l =>
    match digitsToNat k with
    | some i => i < l.length
    | none => false
  | _ => false

/-- Field assignment on an object field list: updates in place, else appends. -/
def jsSetFieldList (fields : List (String × Value)) (k : String) (v : Value) :
    List (String × Value) :=
  if fields.any (fun p => p.1 == k) then
    fields.map (fun p => if p.1 == k then (k, v) else p)
  else fields ++ [(k, v)]

/-- Array element assignment, padding holes with `undefined` as JavaScript
does for out-of-bounds indices. -/
def listSetPad (l : List Value) (i : Nat) (v : Value) : List Value :=
  if i < l.length then l.set i v
  else l ++ List.replicate (i - l.length) Value.vUndefined ++ [v]

/-- Property assignment `cur[k] = v` (assignment to a primitive, a strict
mode TypeError in the source, is an unmodelled corner left unchanged). -/
def assign (cur : Value) (k : String) (v : Value) : Value :=
  match cur with
  | .vObj fields => .vObj (jsSetFieldList fields k v)
  | .vArr l =>
    (match digitsToNat k with
     | some i => .vArr (listSetPad l i v)
     | none => .vArr l)
  | other => other

/-- Path separators of the source's `path.split(/[\.\[\]]+/)`. -/
def isPathSep (c : Char) : Bool :=
  c == '.' || c == '[' || c == ']'

/-- Maximal separator-free runs of a path (the split followed by
`filter(Boolean)`). -/
def pathRunsAux (acc : List Char) : List Char → List String
  | [] => if acc.isEmpty then [] else [String.mk acc.reverse]
  | c :: rest =>
    if isPathSep c then
      if acc.isEmpty then pathRunsAux [] rest
      else String.mk acc.reverse :: pathRunsAux [] rest
    else pathRunsAux (c :: acc) rest

/-- `path.split(/[\.\[\]]+/).filter(Boolean)`. -/
def splitPathParts (path : String) : List String :=
  pathRunsAux [] path.toList

/-- `split('.')` followed by `filter(Boolean)`: the maximal dot-free runs. -/
def splitDropDotAux (acc : List Char) : List Char → List String
  | [] => if acc.isEmpty then [] else [String.mk acc.reverse]
  | c :: rest =>
    if c == '.' then
      if acc.isEmpty then splitDropDotAux [] rest
      else String.mk acc.reverse :: splitDropDotAux [] rest
    else splitDropDotAux (c :: acc) rest

/-- `arrayPath.split('.').filter(Boolean)` of the `[]` branch. -/
def splitDropDot (path : String) : List String :=
  splitDropDotAux [] path.toList

/-- The dot/index navigation of `_setNestedProperty`'s else branch: missing
intermediate containers are created as arrays when the next segment is
numeric and as objects otherwise, and the final segment is assigned. -/
def setPathRest (cur : Value) (parts : List String) (value : Value) : Value :=
  match parts with
  | [] => assign cur "undefined" value
  | [last] => assign cur last value
  | part :: next :: rest =>
    let isNextArray := isNumericStr next
    let child :=
      if jsHasKey cur part then jsGet cur part
      else (if isNextArray then Value.vArr [] else Value.vObj [])
    assign cur part (setPathRest child (next :: rest) value)

/-- Append to (or create) the array stored under a key, as the `[]` branch of
`_setNestedProperty` does (a non-array existing value is clobbered by a fresh
array before the push). -/
def pushAt (cur : Value) (k : String) (value : Value) : Value :=
  let arr := match jsGet cur k with | .vArr l => l | _ => []
  assign cur k (.vArr (arr ++ [value]))

/-- Navigation of the `[]` branch of `_setNestedProperty`: intermediate
containers are always created as objects and the value is pushed at the final
segment (`"undefined"` when the path had no segments, matching
`parts[parts.length - 1] || parts[0]` on an empty list). -/
def setArrayPath (cur : Value) (parts : List String) (value : Value) : Value :=
  match parts with
  | [] => pushAt cur "undefined" value
  | [k] => pushAt cur k value
  | p :: rest =>
    let child := if jsHasKey cur p then jsGet cur p else Value.vObj []
    assign cur p (setArrayPath child rest value)

/-- `_setNestedProperty`: a path containing `[]` strips its first marker and
pushes onto the array at the dot path; any other path assigns through
dot/bracket navigation. -/
def setNestedProperty (obj : Value) (path : String) (value : Value) : Value :=
  if listContainsSub path.toList ['[', ']'] then
    let arrayPath := replaceFirst path "[]" ""
    let parts := splitDropDot arrayPath
    setArrayPath obj parts value
  else
    setPathRest obj (splitPathParts path) value

/-- `_extractFromFormData`: fold the (ordered) form entries into an initially
empty record via `_setNestedProperty`. -/
def extractFromFormData (entries : List (String × String)) : Value :=
  entries.foldl (fun acc p => setNestedProperty acc p.1 (.vStr p.2)) (.vObj [])

/-- Fixture: a record whose `owner` property references another record. -/
def exC1Data : Value := .vObj [("@id", .vStr "me"), ("owner", .vStr "#x")]

/-- Fixture: the record the reference `#x` points to. -/
def exC1Target : Value := .vObj [("@id", .vStr "x"), ("name", .vStr "X")]

/-- Fixture: a context whose batch contains the referenced record. -/
def exC1Ctx : Ctx := ⟨exC1Data, exC1Data, [exC1Data, exC1Target]⟩

/-- Fixture: the same shape with the property named `agent`. -/
def exC1AgentData : Value := .vObj [("@id", .vStr "me"), ("agent", .vStr "#x")]

/-- Fixture: context for the `agent` variant. -/
def exC1AgentCtx : Ctx := ⟨exC1AgentData, exC1AgentData, [exC1AgentData, exC1Target]⟩

/-- Fixture: an untyped scope-opening template root. -/
def exUntypedDiv : Elem := .mk "div" [("itemscope", "")] "" []

/-- Fixture: a template root typed `https://schema.org/Person`. -/
def exPersonDiv : Elem :=
  .mk "div" [("itemscope", ""), ("itemtype", "https://schema.org/Person")] "" []

/-- Fixture: a template root whose declared type is the literal string
`undefined/Person`. -/
def exUndefPersonDiv : Elem :=
  .mk "div" [("itemscope", ""), ("itemtype", "undefined/Person")] "" []

/-- Fixture: a record carrying `@type` but no `@context`. -/
def exC2Rec : Value := .vObj [("@type", .vStr "Person"), ("name", .vStr "A")]

/-- Fixture: a repeatable array-binding template node. -/
def exFooSpan : Elem := .mk "span" [("itemprop", "foo[]")] "" []

/-- Fixture: the record of the spec's array-expansion example. -/
def exC5Rec : Value := .vObj [("foo", .vArr [.vStr "bar", .vStr "baz", .vStr "boo"])]

/-- Fixture: context for the array-expansion example. -/
def exC5Ctx : Ctx := ⟨exC5Rec, exC5Rec, [exC5Rec]⟩

/-- Fixture: an array-binding node with placeholder text content. -/
def exC6Span : Elem := .mk "span" [("itemprop", "foo[]")] "placeholder" []

/-- Fixture: a record whose array-bound property holds a falsy scalar. -/
def exC6Rec : Value := .vObj [("foo", .vStr "")]

/-- Fixture: context for the falsy-scalar example. -/
def exC6Ctx : Ctx := ⟨exC6Rec, exC6Rec, [exC6Rec]⟩

/-- Fixture: a record whose array-bound property holds a truthy scalar. -/
def exC6TruthyRec : Value := .vObj [("foo", .vStr "bar")]

/-- Fixture: context for the truthy-scalar example. -/
def exC6TruthyCtx : Ctx := ⟨exC6TruthyRec, exC6TruthyRec, [exC6TruthyRec]⟩

/-- Fixture: an empty rendering context. -/
def exEmptyCtx : Ctx := ⟨.vObj [], .vObj [], []⟩

/-- Fixture: the root record of the task-board example. -/
def exPerson : Value := .vObj [("@id", .vStr "johndoe")]

/-- Fixture: a task referencing the person with the marker prefix. -/
def exTask1 : Value := .vObj [("@id", .vStr "t1"), ("assignee", .vStr "#johndoe")]

/-- Fixture: a task referencing the person by bare identifier. -/
def exTask2 : Value := .vObj [("@id", .vStr "t2"), ("assignee", .vStr "johndoe")]

/-- Fixture: a task referencing someone else. -/
def exTask3 : Value := .vObj [("@id", .vStr "t3"), ("assignee", .vStr "#janedoe")]

/-- Fixture: the scope-filter context of the task-board example. -/
def exC10Ctx : Ctx := ⟨exPerson, exPerson, [exPerson, exTask1, exTask2, exTask3]⟩

/-- Helper: membership in the attribute list after a `setAttribute`. -/
theorem attrsGet_setAttrList_self (a : List (String × String)) (n v : String) :
    attrsGet (setAttrList a n v) n = some v := by
  induction a with
  | nil => simp [setAttrList, attrsGet]
  | cons p rest ih =>
    obtain ⟨pa, pw⟩ := p
    by_cases h : pa = n
    · simp [setAttrList, attrsGet, h]
    · simp [setAttrList, attrsGet, h, ih]

/-- Helper: `setAttribute` leaves other attributes unchanged. -/
theorem attrsGet_setAttrList_ne (a : List (String × String)) (n v m : String) (h : m ≠ n) :
    attrsGet (setAttrList a n v) m = attrsGet a m := by
  induction a with
  | nil => simp [setAttrList, attrsGet, Ne.symm h]
  | cons p rest ih =>
    obtain ⟨pa, pw⟩ := p
    by_cases hp : pa = n
    · subst hp
      simp [setAttrList, attrsGet, Ne.symm h]
    · simp [setAttrList, attrsGet, hp, ih]

/-- Helper: attribute removal leaves other attributes unchanged. -/
theorem attrsGet_filter_ne (a : List (String × String)) (n m : String) (h : m ≠ n) :
    attrsGet (a.filter (fun p => !decide (p.1 = n))) m = attrsGet a m := by
  induction a with
  | nil => simp [attrsGet]
  | cons p rest ih =>
    obtain ⟨pa, pw⟩ := p
    by_cases hp : pa = n
    · subst hp
      simp [attrsGet, Ne.symm h, ih]
    · by_cases hm : pa = m
      · subst hm
        simp [attrsGet, hp]
      · simp [attrsGet, hp, hm, ih]

/-- Helper: replacing the children of an element does not change its
attributes. -/
theorem getAttr_setChildren (e : Elem) (cs : List Elem) (n : String) :
    (e.setChildren cs).getAttr n = e.getAttr n := by
  cases e; rfl

/-- Helper: setting the text of an element does not change its attributes. -/
theorem getAttr_setText (e : Elem) (x : String) (n : String) :
    (e.setText x).getAttr n = e.getAttr n := by
  cases e; rfl

/-- Helper: the leaf-value assignment never touches the `itemprop`
attribute, whatever the element's tag. -/
theorem getAttr_setElementValue_itemprop (e : Elem) (v : Value) :
    (setElementValue e v).getAttr "itemprop" = e.getAttr "itemprop" := by
  cases e with
  | mk t a x cs =>
    unfold setElementValue
    repeat' split
    all_goals
      simp +decide [Elem.getAttr, Elem.attrs, Elem.setAttr, Elem.setText, Elem.setChildren,
        Elem.removeAttr, attrsGet_setAttrList_ne, attrsGet_filter_ne, decide_not]

/-- C1: the spec says every constraint of the exact shape `@id == <property>`
is a reference-resolution request for any property name: here `owner` holds
`"#x"`, the batch contains a record with `@id = "x"`, so the claim requires
the expression to evaluate true and substitute that record.  The code
hard-codes the literal expression text `@id==agent`: for the property
`owner` it falls through to generic evaluation of `"me"=="#x"`, yielding
false with no substitution, while the identical configuration under the
property name `agent` resolves and substitutes. -/
theorem c1_reference_resolution_only_for_literal_agent :
    evaluateExpressionWith jsEvalModel "@id==owner" exC1Data exC1Ctx = (false, none, [])
    ∧ transformExpression "@id==owner" exC1Data = "\"me\"==\"#x\""
    ∧ evaluateExpressionWith jsEvalModel "@id==agent" exC1AgentData exC1AgentCtx
        = (true, some exC1Target, []) :=
  ⟨rfl, rfl, rfl⟩

/-- C2: the spec's both-or-neither rule says a record with `@type` but no
`@context` is untyped for matching: only an untyped root may match it, and it
is never skipped because typed roots exist.  The code instead computes the
qualified type `"undefined/Person"`: (i) with a typed root present the
record is skipped outright (`selectRoot` returns none even though an untyped
sibling exists in the template; the typed-roots-only cache makes the claim's
promised untyped match impossible); (ii) with no typed roots the first root
does apply; (iii) a root declaring the literal type `undefined/Person` is
matched — a typed match the claim forbids. -/
theorem c2_type_without_context_not_untyped :
    selectRoot (parseTemplate [exPersonDiv, exUntypedDiv]) false exC2Rec = none
    ∧ selectRoot (parseTemplate [exUntypedDiv]) false exC2Rec
        = some ⟨exUntypedDiv, none, analyzeElement exUntypedDiv⟩
    ∧ (selectRoot (parseTemplate [exUndefPersonDiv]) false exC2Rec).map Root.itemtype
        = some (some "undefined/Person") :=
  ⟨rfl, rfl, rfl⟩

/-- C3 counterexample: the claim says a bare identifier operand that is not a
property of the record is substituted by the empty string, so `p == ""`
evaluates true on a record lacking `p`.  On the empty record the code leaves
`p` unsubstituted, the host evaluation fails, and the expression evaluates
false with a diagnostic — not true. -/
theorem c3_counterexample_missing_property_not_empty_string :
    evaluateExpressionWith jsEvalModel "p == \"\"" (.vObj []) exEmptyCtx
      = (false, none, ["Failed to evaluate constraint: p == \"\""]) :=
  rfl

/-- C3 amended: a bare identifier operand that is not an own property of the
record is left unsubstituted in the expression text; the host evaluation of
the transformed text then fails and the expression evaluates false with a
diagnostic, for every record lacking the property. -/
theorem c3_amended_missing_property_evaluates_false (data : Value) (ctx : Ctx)
    (h : hasOwn data "p" = false) :
    evaluateExpressionWith jsEvalModel "p == \"\"" data ctx
      = (false, none, ["Failed to evaluate constraint: p == \"\""]) := by
  have htr : transformExpression "p == \"\"" data = "p == \"\"" := by
    unfold transformExpression
    simp +decide [replaceFirst, replaceFirstList, wordRuns, splitRuns, splitRunsAux, isWordChar, h]
  unfold evaluateExpressionWith
  rw [if_neg (by decide)]
  rw [htr]
  rfl

/-- C3 amended witness: concrete instance of the amended statement on a
record that has properties, just not `p`. -/
theorem c3_amended_missing_property_witness :
    evaluateExpressionWith jsEvalModel "p == \"\"" (.vObj [("q", .vStr "1")]) exEmptyCtx
      = (false, none, ["Failed to evaluate constraint: p == \"\""]) :=
  c3_amended_missing_property_evaluates_false (.vObj [("q", .vStr "1")]) exEmptyCtx rfl

/-- C4: flat form entries — dot paths build nested records, an explicit `[]`
marker builds and extends an ordered sequence, a numeric index builds a
sequence, but a repeated plain key does NOT accumulate: the second value
overwrites the first (the claim and the repo documentation promise
`{tags: ["a","b"]}`; the code produces `{tags: "b"}`). -/
theorem c4_form_normalization_repeated_plain_key_overwrites :
    extractFromFormData [("a.b", "v")] = .vObj [("a", .vObj [("b", .vStr "v")])]
    ∧ extractFromFormData [("items[]", "1"), ("items[]", "2")]
        = .vObj [("items", .vArr [.vStr "1", .vStr "2"])]
    ∧ extractFromFormData [("items[0]", "x")] = .vObj [("items", .vArr [.vStr "x"])]
    ∧ extractFromFormData [("tags", "a"), ("tags", "b")] = .vObj [("tags", .vStr "b")] :=
  ⟨rfl, rfl, rfl, rfl⟩

/-- C7: the claim says constraint evaluation is a dedicated small evaluator
and never compiles host code, so the result and effects cannot depend on
arbitrary expression content.  The code hands the substituted expression
text to the host compiler (`Function(...)` at src/index.mjs:622, the
`hostEval` parameter here): an arbitrary program text reaches the host
verbatim, and the evaluation outcome is whatever the host execution
returns — two different host behaviours yield two different results for the
same expression and record. -/
theorem c7_expression_text_compiled_by_host :
    transformExpression "globalThis.leak = secret" (.vObj []) = "globalThis.leak = secret"
    ∧ evaluateExpressionWith (fun _ => some true) "globalThis.leak = secret" (.vObj []) exEmptyCtx
        = (true, none, [])
    ∧ evaluateExpressionWith (fun _ => some false) "globalThis.leak = secret" (.vObj []) exEmptyCtx
        = (false, none, []) :=
  ⟨rfl, rfl, rfl⟩

/-- Helper: the clone loop of the array expansion is exactly one clone per
array element, in array order, each produced by the per-item body. -/
theorem processArrayLoop_eq_map (hostEval : String → Option Bool) (children : List Structure)
    (arr : Bool) (clean : Option String) (e : Elem) (ctx : Ctx) (items : List Value) :
    processArrayLoop hostEval children arr clean e items ctx
      = (items.map (fun item => (oneArrayClone hostEval children arr clean e item ctx).1),
         (items.map (fun item => (oneArrayClone hostEval children arr clean e item ctx).2)).flatten) := by
  induction items with
  | nil => simp [processArrayLoop]
  | cons i rest ih =>
    cases hx : oneArrayClone hostEval children arr clean e i ctx with
    | mk ne ds1 => simp [processArrayLoop, hx, ih]

set_option maxHeartbeats 1600000 in
/-- Helper: every clone produced by the array-expansion body carries the
binding attribute with the array marker stripped. -/
theorem getAttr_oneArrayClone_itemprop (hostEval : String → Option Bool)
    (children : List Structure) (clean : Option String) (e : Elem) (item : Value) (ctx : Ctx) :
    ((oneArrayClone hostEval children true clean e item ctx).1).getAttr "itemprop"
      = some (clean.getD "") := by
  cases e with
  | mk t a x cs =>
    unfold oneArrayClone
    repeat' split
    all_goals
      first
        | exact absurd rfl (by assumption)
        | (rw [getAttr_setElementValue_itemprop]
           simp [Elem.setAttr, Elem.getAttr, Elem.attrs, attrsGet_setAttrList_self])
        | simp [Elem.setAttr, Elem.setChildren, Elem.getAttr, Elem.attrs,
            attrsGet_setAttrList_self]

/-- C5: a node whose analyzed binding is `p[]` (array flag set, clean name
`p`, no gating attributes), rendered against a record whose `p` holds a
sequence, is replaced by exactly one sibling clone per element of the
sequence, in sequence order, each clone produced by the per-item body and
each carrying `itemprop = p` with the array marker stripped. -/
theorem c5_array_expansion (hostEval : String → Option Bool) (p : String) (isc : Bool)
    (it scp : Option String) (attrs : List (String × String)) (children : List Structure)
    (e : Elem) (data : Value) (ctx : Ctx) (items : List Value)
    (hp : p ≠ "") (hv : jsGet data p = .vArr items) :
    processElement hostEval
        (.mk (some (p ++ "[]")) isc it none none scp true (some p) attrs children) e data ctx
      = (POut.expanded (items.map
            (fun item => (oneArrayClone hostEval children true (some p) e item ctx).1)),
         (items.map
            (fun item => (oneArrayClone hostEval children true (some p) e item ctx).2)).flatten)
    ∧ ∀ item : Value,
        ((oneArrayClone hostEval children true (some p) e item ctx).1).getAttr "itemprop"
          = some p := by
  constructor
  · cases scp <;>
      simp +decide [processElement, processElementRest, strTruthy, hp, hv, jsTruthy,
        resolveReference, processArrayLoop_eq_map]
  · intro item
    simpa using getAttr_oneArrayClone_itemprop hostEval children (some p) e item ctx

/-- C5 witness: the spec's own example, `\x7bfoo: ["bar","baz","boo"]\x7d`
against a repeatable `foo[]` span: three sibling clones, in order, with the
marker stripped and the contents `bar`, `baz`, `boo`. -/
theorem c5_array_expansion_witness :
    (processElement jsEvalModel
        (.mk (some ("foo" ++ "[]")) false none none none none true (some "foo") [] [])
        exFooSpan exC5Rec exC5Ctx
      = (POut.expanded ([Value.vStr "bar", Value.vStr "baz", Value.vStr "boo"].map
            (fun item => (oneArrayClone jsEvalModel [] true (some "foo") exFooSpan item exC5Ctx).1)),
         ([Value.vStr "bar", Value.vStr "baz", Value.vStr "boo"].map
            (fun item => (oneArrayClone jsEvalModel [] true (some "foo") exFooSpan item exC5Ctx).2)).flatten))
    ∧ ([Value.vStr "bar", Value.vStr "baz", Value.vStr "boo"].map
          (fun item => (oneArrayClone jsEvalModel [] true (some "foo") exFooSpan item exC5Ctx).1))
        = [.mk "span" [("itemprop", "foo")] "bar" [],
           .mk "span" [("itemprop", "foo")] "baz" [],
           .mk "span" [("itemprop", "foo")] "boo" []] :=
  ⟨(c5_array_expansion jsEvalModel "foo" false none none [] [] exFooSpan exC5Rec exC5Ctx
      [Value.vStr "bar", Value.vStr "baz", Value.vStr "boo"] (by decide) rfl).1,
   by
    simp +decide [oneArrayClone, setElementValue, exFooSpan, Elem.setAttr, Elem.setText,
      Elem.tag, Elem.attrs, Elem.text, Elem.children, setAttrList, strToLower, jsToString]⟩

/-- C6 counterexample: the claim says a present non-sequence value for an
array binding is always a soft error — diagnostic emitted, node left
unfilled, no value assigned.  For the present falsy value `""` the code's
truthiness guard skips the array path entirely: the value IS assigned (the
placeholder text is overwritten by the empty string), the marker is
stripped, and no diagnostic is emitted. -/
theorem c6_counterexample_falsy_nonsequence_assigned :
    processElement jsEvalModel (analyzeElement exC6Span) exC6Span exC6Rec exC6Ctx
      = (.single (.mk "span" [("itemprop", "foo")] "" []), []) := by
  simp +decide [processElement, processElementRest, analyzeElement, analyzeChildren,
    evaluateConstraint, strTruthy, attrsGet, applyAttributeTemplates, setElementValue,
    applyItemid, jsGet, jsTruthy, Elem.setAttr, Elem.setText, Elem.getAttr, Elem.hasAttr,
    Elem.tag, Elem.attrs, Elem.text, Elem.children, setAttrList, strEndsWith, strToLower,
    containsPlaceholderOpen, exC6Span, exC6Rec, exC6Ctx, strDropRight2, List.dropLast,
    Value.isUndefined]

/-- C6 amended: for a declared array binding whose value on the active record
is present, TRUTHY and not a sequence, the node yields a soft error exactly
as the claim says: one diagnostic, no clones, and the node is returned
entirely unprocessed (left unfilled); a falsy non-sequence value is instead
assigned through the scalar path (see the counterexample). -/
theorem c6_amended_truthy_nonsequence_soft_error (hostEval : String → Option Bool) (p : String)
    (isc : Bool) (it scp : Option String) (attrs : List (String × String))
    (children : List Structure) (e : Elem) (data : Value) (ctx : Ctx) (v : Value)
    (hp : p ≠ "") (hv : jsGet data p = v) (ht : jsTruthy v = true) (hna : ∀ l, v ≠ .vArr l) :
    processElement hostEval
        (.mk (some (p ++ "[]")) isc it none none scp true (some p) attrs children) e data ctx
      = (.single e, ["Expected array for property: " ++ p]) := by
  cases v with
  | vArr l => exact absurd rfl (hna l)
  | _ =>
    cases scp <;>
      simp_all +decide [processElement, processElementRest, strTruthy, jsTruthy,
        resolveReference]

/-- C6 amended witness: the truthy scalar `"bar"` under a `foo[]` binding
produces the diagnostic and returns the node untouched. -/
theorem c6_amended_truthy_nonsequence_witness :
    processElement jsEvalModel
        (.mk (some ("foo" ++ "[]")) false none none none none true (some "foo") [] [])
        exC6Span exC6TruthyRec exC6TruthyCtx
      = (.single exC6Span, ["Expected array for property: foo"]) :=
  c6_amended_truthy_nonsequence_soft_error jsEvalModel "foo" false none none [] []
    exC6Span exC6TruthyRec exC6TruthyCtx (.vStr "bar") (by decide) rfl (by decide)
    (fun l => by simp)

/-- C8: a render call's output (and diagnostics) are a function of the cached
roots, the selector flag and the call's own input alone: rendering the same
input again after any render produces a structurally equal output, and the
output does not depend on the `_lastRenderData` left by earlier calls. -/
theorem c8_render_idempotent_and_state_independent (hostEval : String → Option Bool)
    (eng : Engine) (input : Value) :
    (render hostEval eng input).2 = (render hostEval (render hostEval eng input).1 input).2
    ∧ ∀ l1 l2 : Option Value,
        (render hostEval { eng with lastRenderData := l1 } input).2
          = (render hostEval { eng with lastRenderData := l2 } input).2 := by
  cases eng
  exact ⟨rfl, fun _ _ => rfl⟩

/-- Helper: one render call leaves the cached roots and the selector flag of
the engine unchanged (it only overwrites `_lastRenderData`). -/
theorem render_preserves_cache (hostEval : String → Option Bool) (eng : Engine) (input : Value) :
    (render hostEval eng input).1.roots = eng.roots
    ∧ (render hostEval eng input).1.hasSelector = eng.hasSelector := by
  cases eng
  exact ⟨rfl, rfl⟩

/-- C9: the template cache is built once at construction (`parseTemplate`)
and after any sequence of render calls with any data it still equals that
construction-time analysis; renders only ever touch the `_lastRenderData`
field, producing output from clones of the cached roots. -/
theorem c9_template_cache_immutable_across_renders (hostEval : String → Option Bool)
    (tchildren : List Elem) (hasSel : Bool) (inputs : List Value) :
    (inputs.foldl (fun e i => (render hostEval e i).1)
        ⟨parseTemplate tchildren, hasSel, none⟩).roots
      = parseTemplate tchildren := by
  have h : ∀ (l : List Value) (eng : Engine),
      (l.foldl (fun e i => (render hostEval e i).1) eng).roots = eng.roots := by
    intro l
    induction l with
    | nil => intro eng; rfl
    | cons i rest ih =>
      intro eng
      rw [List.foldl_cons, ih, (render_preserves_cache hostEval eng i).1]
  exact h inputs _

/-- Helper: strict equality against a string value holds exactly for that
string value. -/
theorem jsStrictEq_vStr_iff (v : Value) (s : String) :
    jsStrictEq v (.vStr s) = true ↔ v = .vStr s := by
  cases v <;> simp [jsStrictEq]

/-- C10: a batch record matches a scope filter on property P exactly when its
P value is the marker-prefixed or the bare form of the ROOT record's
identifier; a falsy (missing or empty) root identifier yields no matches;
and the per-node record handed to the filter is ignored entirely. -/
theorem c10_scope_filter_uses_root_identifier (scopeProp : String) (d d2 : Value) (ctx : Ctx) :
    (∀ id : String, jsGet ctx.rootData "@id" = .vStr id → id ≠ "" →
      ∀ item : Value,
        (item ∈ findScopeMatches scopeProp d ctx
          ↔ item ∈ ctx.allData
            ∧ (jsGet item scopeProp = .vStr ("#" ++ id) ∨ jsGet item scopeProp = .vStr id)))
    ∧ (jsTruthy (jsGet ctx.rootData "@id") = false → findScopeMatches scopeProp d ctx = [])
    ∧ findScopeMatches scopeProp d ctx = findScopeMatches scopeProp d2 ctx := by
  refine ⟨?_, ?_, rfl⟩
  · intro id hid hne item
    unfold findScopeMatches
    rw [hid]
    simp [jsTruthy, hne, List.mem_filter, jsStrictEq_vStr_iff, jsToString]
  · intro h
    unfold findScopeMatches
    simp [h]

/-- C10 witness: in the task-board batch, both the `#johndoe` and the bare
`johndoe` references to the root's identifier match the `assignee` filter. -/
theorem c10_scope_filter_witness :
    exTask1 ∈ findScopeMatches "assignee" exPerson exC10Ctx
    ∧ exTask2 ∈ findScopeMatches "assignee" exPerson exC10Ctx :=
  ⟨((c10_scope_filter_uses_root_identifier "assignee" exPerson exPerson exC10Ctx).1
      "johndoe" rfl (by decide) exTask1).mpr ⟨by simp [exC10Ctx], Or.inl rfl⟩,
   ((c10_scope_filter_uses_root_identifier "assignee" exPerson exPerson exC10Ctx).1
      "johndoe" rfl (by decide) exTask2).mpr ⟨by simp [exC10Ctx], Or.inr rfl⟩⟩

end HTMLTemplateSpec
